import Mathlib

/-!
Verification development for the mcstructure-to-glb converter (src/index.ts).

The embedding below translates the domain logic of the converter into Lean:
the size validation of the CLI action, the model resolver `getBlockMaterial`
(model lookup, texture loading, the parent/variable chain walk, face-slot
assembly), the memoizing wrapper `getMaterials` with its module-level
`materialCache`, and the voxel assembler `processBlocks`.

Conventions of the embedding:
* JavaScript exceptions are `Except.error ()`; the unbounded `while (parent)`
  loop of the resolver is given explicit fuel, with `none` (in
  `RunRes α = Option (Except Unit α)`) marking that the fuel ran out, i.e.
  that the real loop has not terminated within that many iterations.
* The file-system is a `Store`: `models` maps a path relative to
  `assets/minecraft/models/` (the initial lookup uses the prefix `block/`,
  matching `path.join(..., "models", "block", name + ".json")`) to either a
  parse failure of `JSON.parse` (`ModelFile.malformed`) or a parsed document;
  `texFiles` maps a path relative to `assets/minecraft/textures/` to the
  texture `loadAsync` would produce, `none` when `fs.existsSync` is false.
* JavaScript `Map` objects that are only read through `get`/`set` are
  association lists where the most recent `set` is the head.
-/

namespace McStruct

/-- `s.replace("minecraft:", "")` of JavaScript: remove the first occurrence
of the pattern only (JS `String.prototype.replace` with a string pattern
replaces a single occurrence). -/
def removeFirst (pat : List Char) : List Char → List Char
  | [] => []
  | c :: rest =>
    if pat.isPrefixOf (c :: rest) then (c :: rest).drop pat.length
    else c :: removeFirst pat rest

def stripNS (s : String) : String :=
  String.mk (removeFirst "minecraft:".toList s.toList)

/-- A texture as produced by `textureLoader.loadAsync` (the pixel data and
filters are irrelevant to the properties below; the texture is identified by
the path it was decoded from). -/
structure Texture where
  path : String
deriving DecidableEq

/-- `new THREE.MeshStandardMaterial({color})` vs `({map})`. -/
inductive Material
  | colorMat (color : Nat)
  | mapMat (map : Option Texture)
deriving DecidableEq

/-- One entry of a model's `elements` array: its `faces` object, each face
carrying its `texture` property (`none` when the JSON face object has no
`texture` field, in which case `data.texture.slice(1)` throws). -/
structure Element where
  faces : List (String × Option String)
deriving DecidableEq

/-- A parsed block-model JSON document: the three fields the resolver reads. -/
structure ModelData where
  parent : Option String
  textures : Option (List (String × String))
  elements : Option (List Element)
deriving DecidableEq

/-- Outcome of `JSON.parse(fs.readFileSync(path))` for an existing file. -/
inductive ModelFile
  | malformed
  | wellFormed (data : ModelData)
deriving DecidableEq

/-- The file-system as seen by the resolver. -/
structure Store where
  models : String → Option ModelFile
  texFiles : String → Option Texture

/-- `none` = the unbounded loop is still running after the given fuel;
`some (Except.error ())` = a JavaScript exception was thrown;
`some (Except.ok a)` = normal completion. -/
abbrev RunRes (α : Type) := Option (Except Unit α)

/-- The `textureMap : Map<string, THREE.Texture>` of `getBlockMaterial`.
`Map.get` returns `undefined` both for an absent key and for a key that was
`set` to `undefined`; both are `none` here. -/
abbrev TexMap := List (String × Option Texture)

def tmGet (tm : TexMap) (k : String) : Option Texture :=
  match tm.lookup k with
  | some v => v
  | none => none

def tmSet (tm : TexMap) (k : String) (v : Option Texture) : TexMap :=
  (k, v) :: tm

/-- JavaScript truthiness of an optional string (`undefined` and `""` are
falsy), as used by `while (parent)`. -/
def truthyStr : Option String → Bool
  | none => false
  | some s => s != ""

/-- The texture-loading loop over `modelData.textures`
(lines 233-256 of src/index.ts): strip the namespace, check `existsSync`,
load and `set`; a missing file only logs and loads nothing. -/
def loadTextures (store : Store) (entries : List (String × String)) : TexMap :=
  entries.foldl (fun tm kv =>
    match store.texFiles (stripNS kv.2) with
    | some t => tmSet tm kv.1 (some t)
    | none => tm) []

/-- The `elements[0].faces` loop (lines 264-270): for each face,
`data.texture.slice(1)` (throws when the face has no `texture`), look the
reference up in the texture map and `set` the face name to the result. -/
def applyFaces (tm : TexMap) (faces : List (String × Option String)) :
    Except Unit TexMap :=
  faces.foldlM (fun tm kv =>
    match kv.2 with
    | none => Except.error ()
    | some tex => Except.ok (tmSet tm kv.1 (tmGet tm (tex.drop 1)))) tm

/-- The parent-textures loop (lines 283-291): every value is treated as a
`#`-reference (`slice(1)`), looked up, and `set` under the parent's key. -/
def mergeParentTextures (tm : TexMap) (entries : List (String × String)) : TexMap :=
  entries.foldl (fun tm kv => tmSet tm kv.1 (tmGet tm (kv.2.drop 1))) tm

/-- The `while (parent)` loop of `getBlockMaterial` (lines 262-294), with
fuel. Each iteration: if `parentData.elements` is truthy (any array,
including the empty one), take `elements[0].faces` (throws on an empty
array) and break; otherwise read and parse the parent model (an absent file
makes `readFileSync` throw, a malformed one makes `JSON.parse` throw),
fold its `textures` into the map, and continue with
`parentData.parent?.replace("minecraft:", "") ?? undefined`. -/
def walkChain (store : Store) : Nat → TexMap → Option String → ModelData → RunRes TexMap
  | 0, _, _, _ => none
  | fuel + 1, tm, parent, parentData =>
    if truthyStr parent then
      match parentData.elements with
      | some [] => some (Except.error ())
      | some (el :: _) => some (applyFaces tm el.faces)
      | none =>
        match store.models (parent.getD "") with
        | none => some (Except.error ())
        | some ModelFile.malformed => some (Except.error ())
        | some (ModelFile.wellFormed pd) =>
          let tm2 := match pd.textures with
            | some entries => mergeParentTextures tm entries
            | none => tm
          walkChain store fuel tm2 (pd.parent.map stripNS) pd
    else some (Except.ok tm)

def fallbackMaterial : Material := Material.colorMat 0xff0000

/-- The `addMaterials` closure (lines 214-230): the face map
`up↦2, down↦3, north↦4, south↦5, east↦0, west↦1` yields, read off by slot
index, the array `[east, west, up, down, north, south]`. -/
def addMaterialsFn (tm : TexMap) : List Material :=
  [Material.mapMat (tmGet tm "east"), Material.mapMat (tmGet tm "west"),
   Material.mapMat (tmGet tm "up"), Material.mapMat (tmGet tm "down"),
   Material.mapMat (tmGet tm "north"), Material.mapMat (tmGet tm "south")]

/-- `getBlockMaterial` (lines 187-299): strip the namespace; a missing model
file yields six copies of the red fallback material; an existing file is
parsed (`JSON.parse` throws on malformed JSON), its `textures` are loaded,
and the parent chain is walked before assembling the six face slots. -/
def getBlockMaterial (store : Store) (fuel : Nat) (blockName : String) :
    RunRes (List Material) :=
  match store.models ("block/" ++ stripNS blockName) with
  | none => some (Except.ok (List.replicate 6 fallbackMaterial))
  | some ModelFile.malformed => some (Except.error ())
  | some (ModelFile.wellFormed md) =>
    let tm := match md.textures with
      | some entries => loadTextures store entries
      | none => []
    match walkChain store fuel tm (md.parent.map stripNS) md with
    | none => none
    | some (Except.error e) => some (Except.error e)
    | some (Except.ok tm2) => some (Except.ok (addMaterialsFn tm2))

/-- One mesh instance added to the scene by `processBlocks`, together with
the loop index it was placed at and the palette name that selected its
materials (the trace of `scene.add(mesh)` at iteration `i`). -/
structure Placed where
  i : Nat
  name : String
  x : Nat
  y : Nat
  z : Nat
  materials : List Material
deriving DecidableEq

/-- The mutable state of a conversion run: the module-level `materialCache`,
a trace of the block names for which `getBlockMaterial` actually executed,
the meshes added to the scene, and the `addedBlocks` counter. -/
structure RunState where
  cache : List (String × List Material)
  trace : List String
  placed : List Placed
  addedBlocks : Nat
deriving DecidableEq

def initState : RunState := ⟨[], [], [], 0⟩

/-- `getMaterials` (lines 112-121): strip the namespace, consult
`materialCache`, and only on a miss run `getBlockMaterial` and store the
result. -/
def getMaterials (store : Store) (fuel : Nat) (st : RunState) (blockName : String) :
    RunRes (List Material × RunState) :=
  match st.cache.lookup (stripNS blockName) with
  | some m => some (Except.ok (m, st))
  | none =>
    match getBlockMaterial store fuel (stripNS blockName) with
    | none => none
    | some (Except.error e) => some (Except.error e)
    | some (Except.ok m) =>
      some (Except.ok (m, { st with cache := (stripNS blockName, m) :: st.cache,
                                    trace := stripNS blockName :: st.trace }))

/-- `x = Math.floor(i / (depth * height)) % width` (line 158). -/
def coordX (i W H D : Nat) : Nat := i / (D * H) % W

/-- `y = Math.floor(i / depth) % height` (line 159). -/
def coordY (i H D : Nat) : Nat := i / D % H

/-- `z = i % depth` (line 160). -/
def coordZ (i D : Nat) : Nat := i % D

/-- One entry of the block palette: its (optional) `name.value`. The
`states` compound is retained by the source but never read. -/
structure PaletteEntry where
  name : Option String
deriving DecidableEq

/-- `palette.findIndex((block) => block.name?.value === "minecraft:air")`
(lines 133-135): the first air-named index, `-1` when there is none. -/
def findAirIndex (palette : List PaletteEntry) : Int :=
  match palette.findIdx? (fun e => e.name == some "minecraft:air") with
  | some n => (n : Int)
  | none => -1

/-- JavaScript `palette[idx]`: `undefined` for a negative or out-of-range
index. -/
def paletteGet (palette : List PaletteEntry) (idx : Int) : Option PaletteEntry :=
  if 0 ≤ idx then palette.get? idx.toNat else none

/-- The body of the `for (const [i, blockIndex] of blockIndices.entries())`
loop (lines 137-165): skip when the index is the air index, is `>=` the
palette length, or is `-1`; skip when the fetched entry is `undefined` or
lacks a name; otherwise resolve materials through the cache and add one mesh
at the computed coordinates. (The source's `if (!material) continue` can
never fire: `getMaterials` always returns an array, and arrays are truthy.) -/
def processCell (store : Store) (fuel : Nat) (W H D : Nat)
    (palette : List PaletteEntry) (airIndex : Int) (st : RunState)
    (i : Nat) (blockIndex : Int) : RunRes RunState :=
  if blockIndex = airIndex ∨ (palette.length : Int) ≤ blockIndex ∨ blockIndex = -1 then
    some (Except.ok st)
  else
    match paletteGet palette blockIndex with
    | none => some (Except.ok st)
    | some blockData =>
      match blockData.name with
      | none => some (Except.ok st)
      | some blockName =>
        match getMaterials store fuel st blockName with
        | none => none
        | some (Except.error e) => some (Except.error e)
        | some (Except.ok (m, st2)) =>
          some (Except.ok { st2 with
            placed := st2.placed ++
              [⟨i, blockName, coordX i W H D, coordY i H D, coordZ i D, m⟩],
            addedBlocks := st2.addedBlocks + 1 })

def processList (store : Store) (fuel : Nat) (W H D : Nat)
    (palette : List PaletteEntry) (airIndex : Int) :
    List Int → Nat → RunState → RunRes RunState
  | [], _, st => some (Except.ok st)
  | b :: rest, i, st =>
    match processCell store fuel W H D palette airIndex st i b with
    | none => none
    | some (Except.error e) => some (Except.error e)
    | some (Except.ok st2) => processList store fuel W H D palette airIndex rest (i + 1) st2

/-- `processBlocks` (lines 123-168): compute the air index once, then run
the loop over `blockIndices` from index 0 with a fresh cache. -/
def processBlocks (store : Store) (fuel : Nat) (grid : List Int)
    (palette : List PaletteEntry) (W H D : Nat) : RunRes RunState :=
  processList store fuel W H D palette (findAirIndex palette) grid 0 initState

/-- A JavaScript number as classified by the size validation: `typeof` is
`"number"` for finite values, `NaN` and the infinities alike. -/
inductive JSNum
  | finite (v : Int)
  | nan
  | inf
  | negInf
deriving DecidableEq

/-- An element of the decoded `size` array: either of number type or not. -/
inductive SizeVal
  | num (n : JSNum)
  | nonNum
deriving DecidableEq

/-- The decoded `root.size?.value?.value`: absent, present but not an array,
or an array. -/
inductive SizeField
  | missing
  | nonArray
  | arr (l : List SizeVal)
deriving DecidableEq

/-- The size validation of the CLI action (lines 40-51): throw unless the
field is an array of length exactly 3 with every element of `typeof`
`"number"`; on success destructure it as `[width, height, depth]` in
declared order. Finiteness is not inspected anywhere. -/
def validateSize : SizeField → Except Unit (JSNum × JSNum × JSNum)
  | SizeField.arr [SizeVal.num a, SizeVal.num b, SizeVal.num c] => Except.ok (a, b, c)
  | _ => Except.error ()

/-! Concrete inputs used by counterexamples and witnesses. -/

/-- A file-system with no model and no texture files at all. -/
def emptyStore : Store := ⟨fun _ => none, fun _ => none⟩

/-- A palette holding a single stone entry (no air entry). -/
def stonePalette : List PaletteEntry := [⟨some "minecraft:stone"⟩]

/-- A palette whose qualified air name occurs at two distinct indices. -/
def dupAirPalette : List PaletteEntry :=
  [⟨some "minecraft:air"⟩, ⟨some "minecraft:air"⟩]

def fb6 : List Material := List.replicate 6 fallbackMaterial

/-- A store whose only model file exists but holds unparseable JSON. -/
def badJsonStore : Store :=
  ⟨fun k => if k = "block/bad" then some ModelFile.malformed else none,
   fun _ => none⟩

def soloTex : Texture := ⟨"blocks/tex"⟩

def soloTextures : List (String × String) := [("a", "blocks/tex")]

/-- A face map sending all six faces to the variable `#a`. -/
def soloEl : Element :=
  ⟨[("east", some "#a"), ("west", some "#a"), ("up", some "#a"),
    ("down", some "#a"), ("north", some "#a"), ("south", some "#a")]⟩

/-- A root model that supplies `elements` itself but declares no parent. -/
def soloMd : ModelData := ⟨none, some soloTextures, some [soloEl]⟩

def soloStore : Store :=
  ⟨fun k => if k = "block/solo" then some (ModelFile.wellFormed soloMd) else none,
   fun k => if k = "blocks/tex" then some soloTex else none⟩

/-- Three model documents forming a parent cycle with no `elements` anywhere:
`cyc` names `block/cyc2` as parent, and `cyc2`/`cyc3` name each other. -/
def cycMd1 : ModelData := ⟨some "block/cyc2", none, none⟩

def cycMd2 : ModelData := ⟨some "block/cyc3", none, none⟩

def cycMd3 : ModelData := ⟨some "block/cyc2", none, none⟩

def cycStore : Store :=
  ⟨fun k =>
    if k = "block/cyc" then some (ModelFile.wellFormed cycMd1)
    else if k = "block/cyc2" then some (ModelFile.wellFormed cycMd2)
    else if k = "block/cyc3" then some (ModelFile.wellFormed cycMd3)
    else none,
   fun _ => none⟩

/-- The final state of running the assembler on a 2×1×1 structure whose grid
is `[0, 0]` over `stonePalette` and an empty file-system: stone resolves once
to the fallback set, and two meshes are placed at `(0,0,0)` and `(1,0,0)`. -/
def demoSt : RunState :=
  { cache := [("stone", fb6)],
    trace := ["stone"],
    placed := [⟨0, "minecraft:stone", 0, 0, 0, fb6⟩, ⟨1, "minecraft:stone", 1, 0, 0, fb6⟩],
    addedBlocks := 2 }

/-- The second placed mesh of `demoSt`. -/
def demoP : Placed := ⟨1, "minecraft:stone", 1, 0, 0, fb6⟩

/-- The run state right after resolving the air name once over the empty
file-system. -/
def airSt2 : RunState := { cache := [("air", fb6)], trace := ["air"], placed := [], addedBlocks := 0 }

/-- Invariant tying the cache, the resolution trace and the placed meshes
together: the trace (names for which the resolver actually executed) has no
duplicates, a name is in the trace exactly when it is cached, and every
placed mesh carries exactly the materials cached under its stripped name. -/
def CacheConsistent (st : RunState) : Prop :=
  st.trace.Nodup ∧
  (∀ k, k ∈ st.trace ↔ (st.cache.lookup k).isSome) ∧
  (∀ p ∈ st.placed, st.cache.lookup (stripNS p.name) = some p.materials)

/-- Invariant on the placed meshes: every loop index seen so far is below
`bound`, each mesh sits at the coordinates the assembler derives from its
index, and indices strictly increase along the scene order. -/
def PlacedSpec (W H D bound : Nat) (st : RunState) : Prop :=
  (∀ p ∈ st.placed, p.i < bound ∧ p.x = coordX p.i W H D ∧
    p.y = coordY p.i H D ∧ p.z = coordZ p.i D) ∧
  st.placed.Pairwise (fun p q => p.i < q.i)

/-! Theorems. -/

/-- Decomposing a flat index below the volume into the assembler's
coordinates and recomposing by `z + y*D + x*D*H` is the identity. -/
theorem decode_encode (i W H D : Nat) (h : i < W * H * D) :
    coordZ i D + coordY i H D * D + coordX i W H D * D * H = i := by
  have hx : i / (D * H) < W := by
    apply Nat.div_lt_of_lt_mul
    calc i < W * H * D := h
    _ = D * H * W := by ring
  unfold coordX coordY coordZ
  rw [Nat.mod_eq_of_lt hx]
  rw [← Nat.div_div_eq_div_mul i D H]
  have h1 : D * (i / D) + i % D = i := Nat.div_add_mod i D
  have h2 : H * (i / D / H) + i / D % H = i / D := Nat.div_add_mod (i / D) H
  calc i % D + i / D % H * D + i / D / H * D * H
      = D * (H * (i / D / H) + i / D % H) + i % D := by ring
    _ = D * (i / D) + i % D := by rw [h2]
    _ = i := h1

/-- Looking a key up right after caching it under that key. -/
theorem lookup_cons_self {β : Type} (k : String) (b : β) (c : List (String × β)) :
    ((k, b) :: c).lookup k = some b := by
  rw [List.lookup_cons]
  rw [beq_self_eq_true k]

/-- A cache extension under a different key does not change a lookup. -/
theorem lookup_cons_of_ne {β : Type} {k a : String} (b : β) (c : List (String × β))
    (h : a ≠ k) : ((k, b) :: c).lookup a = c.lookup a := by
  rw [List.lookup_cons]
  rw [beq_eq_false_iff_ne.mpr h]

/-- Claim C5 (counterexample): a size array whose entries are of number type
but not all finite — here `[NaN, 1, 1]` — is accepted by the validation and
used directly, although the claim requires decoding to fail unless all three
values are finite. -/
theorem c5_counterexample :
    validateSize (SizeField.arr [SizeVal.num JSNum.nan, SizeVal.num (JSNum.finite 1),
      SizeVal.num (JSNum.finite 1)]) =
    Except.ok (JSNum.nan, JSNum.finite 1, JSNum.finite 1) := rfl

/-- Claim C5 (amended): decoding fails with a fatal format error unless the
size field exists and contains exactly 3 values of number type (finiteness
is never checked, so NaN and the infinities pass), and on success those
three values are used directly as width, height, depth in declared order. -/
theorem c5_theorem (f : SizeField) (a b c : JSNum) :
    validateSize f = Except.ok (a, b, c) ↔
      f = SizeField.arr [SizeVal.num a, SizeVal.num b, SizeVal.num c] := by
  constructor
  · intro h
    unfold validateSize at h
    split at h
    · simp_all
    · simp at h
  · rintro rfl
    rfl

/-- Claim C2 (counterexample): a block whose model file exists but holds
malformed JSON makes the resolver throw (the `JSON.parse` on line 207 is not
guarded), aborting the run instead of degrading that block to the fallback. -/
theorem c2_counterexample :
    getBlockMaterial badJsonStore 1 "bad" = some (Except.error ()) := rfl

/-- Claim C2 (amended): the resolver returns the usable 6-slot uniform
fallback when no model file exists for the block's stripped name, but a
malformed (unparseable) model JSON document for a block makes the resolver
raise, aborting the run, rather than degrading that block to the fallback. -/
theorem c2_theorem (store : Store) (fuel : Nat) (blockName : String) :
    (store.models ("block/" ++ stripNS blockName) = none →
      getBlockMaterial store fuel blockName =
        some (Except.ok (List.replicate 6 fallbackMaterial))) ∧
    (store.models ("block/" ++ stripNS blockName) = some ModelFile.malformed →
      getBlockMaterial store fuel blockName = some (Except.error ())) := by
  constructor
  · intro h
    unfold getBlockMaterial
    rw [h]
  · intro h
    unfold getBlockMaterial
    rw [h]

/-- Claim C2 (witness): both branches of the amended claim at concrete
stores. -/
theorem c2_witness :
    getBlockMaterial emptyStore 1 "stone" =
      some (Except.ok (List.replicate 6 fallbackMaterial)) ∧
    getBlockMaterial badJsonStore 2 "bad" = some (Except.error ()) :=
  ⟨(c2_theorem emptyStore 1 "stone").1 rfl, (c2_theorem badJsonStore 2 "bad").2 rfl⟩

/-- Claim C6: every block name whose namespace-stripped key has no model
definition file resolves, without aborting, to six slots all holding the
same uniform fallback material (the flat red tint). -/
theorem c6_theorem (store : Store) (fuel : Nat) (blockName : String)
    (h : store.models ("block/" ++ stripNS blockName) = none) :
    getBlockMaterial store fuel blockName =
      some (Except.ok (List.replicate 6 fallbackMaterial)) := by
  unfold getBlockMaterial
  rw [h]

/-- Claim C6 (witness): the fallback at a concrete namespaced name over the
empty file-system. -/
theorem c6_witness :
    getBlockMaterial emptyStore 3 "minecraft:oak_planks" =
      some (Except.ok (List.replicate 6 fallbackMaterial)) :=
  c6_theorem emptyStore 3 "minecraft:oak_planks" rfl

/-- Claim C7 (counterexample): a model that itself contains an `elements`
face map (all six faces mapped to the resolvable variable `#a`) but declares
no parent resolves with the face map never consulted: every slot comes back
empty, although consulting the face map would have put the loaded texture on
all six slots. -/
theorem c7_counterexample :
    getBlockMaterial soloStore 5 "solo" =
      some (Except.ok (List.replicate 6 (Material.mapMat none))) ∧
    (applyFaces (loadTextures soloStore soloTextures) soloEl.faces).map addMaterialsFn =
      Except.ok (List.replicate 6 (Material.mapMat (some soloTex))) ∧
    Material.mapMat (some soloTex) ≠ Material.mapMat none :=
  ⟨rfl, rfl, by decide⟩

/-- Claim C7 (amended): the walk's guard is the pending parent reference,
not the elements entry: with no (truthy) parent remaining the walk stops at
once, leaving the texture map as loaded — so a definition that supplies
`elements` but no parent never has its face map consulted — while a
definition that supplies an `elements` entry and still has a truthy pending
parent has the first element's face map applied to fill the face slots. -/
theorem c7_theorem (store : Store) (fuel : Nat) (tm : TexMap) (p : Option String)
    (md : ModelData) :
    (truthyStr p = false → walkChain store (fuel + 1) tm p md = some (Except.ok tm)) ∧
    (∀ el els, md.elements = some (el :: els) → truthyStr p = true →
      walkChain store (fuel + 1) tm p md = some (applyFaces tm el.faces)) := by
  constructor
  · intro hp
    unfold walkChain
    simp [hp]
  · intro el els hel hp
    unfold walkChain
    simp [hp, hel]

/-- Claim C7 (witness): both branches of the amended claim at concrete
inputs: the parentless model keeps its texture map untouched; the same model
with a pending parent has its first element's face map applied. -/
theorem c7_witness :
    walkChain emptyStore 1 [] none soloMd = some (Except.ok []) ∧
    walkChain soloStore 1 [("a", some soloTex)] (some "block/x") soloMd =
      some (applyFaces [("a", some soloTex)] soloEl.faces) :=
  ⟨(c7_theorem emptyStore 0 [] none soloMd).1 rfl,
   (c7_theorem soloStore 0 [("a", some soloTex)] (some "block/x") soloMd).2 soloEl [] rfl rfl⟩

/-- On the cyclic parent chain `cyc2 → cyc3 → cyc2 → …` (no `elements`
anywhere) the walk consumes any amount of fuel without completing: the
source's unbounded `while (parent)` loop never exits. -/
theorem cyc_walk (fuel : Nat) :
    (∀ tm, walkChain cycStore fuel tm (some "block/cyc3") cycMd2 = none) ∧
    (∀ tm, walkChain cycStore fuel tm (some "block/cyc2") cycMd3 = none) := by
  induction fuel with
  | zero => exact ⟨fun _ => rfl, fun _ => rfl⟩
  | succ n ih =>
    refine ⟨fun tm => ?_, fun tm => ?_⟩
    · have hstep : walkChain cycStore (n + 1) tm (some "block/cyc3") cycMd2 =
          walkChain cycStore n tm (some "block/cyc2") cycMd3 := rfl
      rw [hstep]
      exact ih.2 tm
    · have hstep : walkChain cycStore (n + 1) tm (some "block/cyc2") cycMd3 =
          walkChain cycStore n tm (some "block/cyc3") cycMd2 := rfl
      rw [hstep]
      exact ih.1 tm

/-- Claim C8: resolving a block whose model sits on a malformed cyclic
parent chain exhausts every fuel bound — the source's parent walk is an
unbounded `while` loop with no step counter, so it never terminates on this
input instead of degrading to a fallback. -/
theorem c8_theorem (fuel : Nat) : getBlockMaterial cycStore fuel "cyc" = none := by
  have h1 : walkChain cycStore fuel [] (some "block/cyc2") cycMd1 = none := by
    cases fuel with
    | zero => rfl
    | succ n =>
      have hstep : walkChain cycStore (n + 1) ([] : TexMap) (some "block/cyc2") cycMd1 =
          walkChain cycStore n [] (some "block/cyc3") cycMd2 := rfl
      rw [hstep]
      exact (cyc_walk n).1 []
  have hmain : getBlockMaterial cycStore fuel "cyc" =
      (match walkChain cycStore fuel [] (some "block/cyc2") cycMd1 with
       | none => none
       | some (Except.error e) => some (Except.error e)
       | some (Except.ok tm2) => some (Except.ok (addMaterialsFn tm2))) := rfl
  rw [hmain, h1]

/-- Claim C4: for every grid entry, when the index is `-1`, equals the air
index computed from the palette, is at least the palette length, fetches
`undefined` (any other negative value included), or fetches an entry lacking
a name, the assembler's loop body returns with the state untouched: no mesh
is emitted and no error is raised — in particular for palettes with no
air-named entry at all. -/
theorem c4_theorem (store : Store) (fuel : Nat) (W H D : Nat)
    (palette : List PaletteEntry) (st : RunState) (i : Nat) (idx : Int)
    (h : idx = -1 ∨ idx = findAirIndex palette ∨ (palette.length : Int) ≤ idx ∨
      paletteGet palette idx = none ∨
      ∃ e, paletteGet palette idx = some e ∧ e.name = none) :
    processCell store fuel W H D palette (findAirIndex palette) st i idx =
      some (Except.ok st) := by
  unfold processCell
  by_cases hc : idx = findAirIndex palette ∨ (palette.length : Int) ≤ idx ∨ idx = -1
  · rw [if_pos hc]
  · rw [if_neg hc]
    push_neg at hc
    rcases h with h | h | h | h | ⟨e, he, hn⟩
    · exact absurd h hc.2.2
    · exact absurd h hc.1
    · exact absurd h (not_le.mpr hc.2.1)
    · rw [h]
    · rw [he]
      simp [hn]

/-- Claim C4 (witness): a palette with no air entry, grid value `-2`
(negative, not `-1`): the state is returned untouched. -/
theorem c4_witness :
    processCell emptyStore 1 1 1 1 stonePalette (findAirIndex stonePalette) initState 0 (-2) =
      some (Except.ok initState) :=
  c4_theorem emptyStore 1 1 1 1 stonePalette initState 0 (-2)
    (Or.inr (Or.inr (Or.inr (Or.inl (by decide)))))

/-- What one successful `getMaterials` call does to the state: placed meshes
and counter are untouched, the stripped name ends up cached with the
returned materials, existing cache entries survive unchanged, and the state
either is exactly the old one (cache hit) or extends cache and trace by the
stripped name (cache miss). -/
theorem getMaterials_ok (store : Store) (fuel : Nat) (st : RunState) (blockName : String)
    (m : List Material) (st' : RunState)
    (h : getMaterials store fuel st blockName = some (Except.ok (m, st'))) :
    st'.placed = st.placed ∧ st'.addedBlocks = st.addedBlocks ∧
    st'.cache.lookup (stripNS blockName) = some m ∧
    (∀ k v, st.cache.lookup k = some v → st'.cache.lookup k = some v) ∧
    (st' = st ∨
      (st.cache.lookup (stripNS blockName) = none ∧
       st'.cache = (stripNS blockName, m) :: st.cache ∧
       st'.trace = stripNS blockName :: st.trace)) := by
  unfold getMaterials at h
  cases hc : st.cache.lookup (stripNS blockName) with
  | some m0 =>
    rw [hc] at h
    simp only [Option.some.injEq, Except.ok.injEq, Prod.mk.injEq] at h
    obtain ⟨hm, hst⟩ := h
    subst hm
    subst hst
    exact ⟨rfl, rfl, hc, fun k v hv => hv, Or.inl rfl⟩
  | none =>
    rw [hc] at h
    cases hg : getBlockMaterial store fuel (stripNS blockName) with
    | none =>
      rw [hg] at h
      simp at h
    | some r =>
      cases r with
      | error e =>
        rw [hg] at h
        simp at h
      | ok m1 =>
        rw [hg] at h
        simp only [Option.some.injEq, Except.ok.injEq, Prod.mk.injEq] at h
        obtain ⟨hm, hst⟩ := h
        subst hm
        subst hst
        refine ⟨rfl, rfl, lookup_cons_self _ _ _, ?_, Or.inr ⟨rfl, rfl, rfl⟩⟩
        intro k v hv
        by_cases hk : k = stripNS blockName
        · subst hk
          rw [hc] at hv
          exact absurd hv (by simp)
        · rw [lookup_cons_of_ne _ _ hk]
          exact hv

/-- Case analysis of one successful loop-body execution: either the cell was
skipped with the state untouched, or materials were obtained through the
cache and exactly one mesh was appended at the coordinates derived from the
loop index. -/
theorem processCell_ok (store : Store) (fuel : Nat) (W H D : Nat)
    (palette : List PaletteEntry) (air : Int) (st : RunState) (i : Nat) (b : Int)
    (st' : RunState)
    (h : processCell store fuel W H D palette air st i b = some (Except.ok st')) :
    st' = st ∨
    ∃ bn m st2, getMaterials store fuel st bn = some (Except.ok (m, st2)) ∧
      st' = { st2 with
        placed := st2.placed ++ [⟨i, bn, coordX i W H D, coordY i H D, coordZ i D, m⟩],
        addedBlocks := st2.addedBlocks + 1 } := by
  unfold processCell at h
  split at h
  · left
    simp only [Option.some.injEq, Except.ok.injEq] at h
    exact h.symm
  · cases hp : paletteGet palette b with
    | none =>
      rw [hp] at h
      simp only [Option.some.injEq, Except.ok.injEq] at h
      exact Or.inl h.symm
    | some bd =>
      rw [hp] at h
      simp only [] at h
      cases hn : bd.name with
      | none =>
        rw [hn] at h
        simp only [Option.some.injEq, Except.ok.injEq] at h
        exact Or.inl h.symm
      | some bn =>
        rw [hn] at h
        simp only [] at h
        cases hg : getMaterials store fuel st bn with
        | none =>
          rw [hg] at h
          simp at h
        | some r =>
          cases r with
          | error e =>
            rw [hg] at h
            simp at h
          | ok pr =>
            obtain ⟨m, st2⟩ := pr
            rw [hg] at h
            simp only [Option.some.injEq, Except.ok.injEq] at h
            exact Or.inr ⟨bn, m, st2, hg, h.symm⟩

/-- One successful loop-body execution preserves the cache/trace/mesh
consistency invariant. -/
theorem processCell_consistent (store : Store) (fuel : Nat) (W H D : Nat)
    (palette : List PaletteEntry) (air : Int) (st : RunState) (i : Nat) (b : Int)
    (st' : RunState)
    (h : processCell store fuel W H D palette air st i b = some (Except.ok st'))
    (hc : CacheConsistent st) : CacheConsistent st' := by
  rcases processCell_ok store fuel W H D palette air st i b st' h with rfl | ⟨bn, m, st2, hg, rfl⟩
  · exact hc
  · have hc2 : CacheConsistent st2 := by
      obtain ⟨hpl, hadd, hlook, hstable, hcases⟩ := getMaterials_ok store fuel st bn m st2 hg
      rcases hcases with rfl | ⟨hnone, hcache, htrace⟩
      · exact hc
      · obtain ⟨hnd, hiff, hplc⟩ := hc
        refine ⟨?_, ?_, ?_⟩
        · rw [htrace]
          refine List.nodup_cons.mpr ⟨?_, hnd⟩
          intro hmem
          have := (hiff _).1 hmem
          rw [hnone] at this
          simp at this
        · intro k
          rw [htrace, hcache]
          by_cases hk : k = stripNS bn
          · subst hk
            simp [lookup_cons_self]
          · rw [lookup_cons_of_ne _ _ hk]
            constructor
            · intro hmem
              rcases List.mem_cons.mp hmem with h1 | h1
              · exact absurd h1 hk
              · exact (hiff k).1 h1
            · intro hsome
              exact List.mem_cons_of_mem _ ((hiff k).2 hsome)
        · intro p hp2
          rw [hpl] at hp2
          exact hstable _ _ (hplc p hp2)
    obtain ⟨hpl, hadd, hlook, hstable, _⟩ := getMaterials_ok store fuel st bn m st2 hg
    obtain ⟨hnd, hiff, hplc⟩ := hc2
    refine ⟨hnd, hiff, ?_⟩
    intro p hp2
    rcases List.mem_append.mp hp2 with h1 | h1
    · exact hplc p h1
    · rcases List.mem_singleton.mp h1 with rfl
      exact hlook

/-- One successful loop-body execution at index `i` preserves the placement
invariant, advancing the index bound by one. -/
theorem processCell_placed (store : Store) (fuel : Nat) (W H D : Nat)
    (palette : List PaletteEntry) (air : Int) (st : RunState) (i : Nat) (b : Int)
    (st' : RunState)
    (h : processCell store fuel W H D palette air st i b = some (Except.ok st'))
    (hp : PlacedSpec W H D i st) : PlacedSpec W H D (i + 1) st' := by
  obtain ⟨hbound, hpair⟩ := hp
  rcases processCell_ok store fuel W H D palette air st i b st' h with rfl | ⟨bn, m, st2, hg, rfl⟩
  · exact ⟨fun p hp2 => ⟨Nat.lt_succ_of_lt (hbound p hp2).1, (hbound p hp2).2⟩, hpair⟩
  · obtain ⟨hpl, _, _, _, _⟩ := getMaterials_ok store fuel st bn m st2 hg
    constructor
    · intro p hp2
      rcases List.mem_append.mp hp2 with h1 | h1
      · rw [hpl] at h1
        exact ⟨Nat.lt_succ_of_lt (hbound p h1).1, (hbound p h1).2⟩
      · rcases List.mem_singleton.mp h1 with rfl
        exact ⟨Nat.lt_succ_self i, rfl, rfl, rfl⟩
    · show (st2.placed ++ [_]).Pairwise _
      rw [hpl]
      refine List.pairwise_append.mpr ⟨hpair, List.pairwise_singleton _ _, ?_⟩
      intro a ha c hc2
      rcases List.mem_singleton.mp hc2 with rfl
      exact (hbound a ha).1

/-- The run invariant: a successful pass over a suffix of the grid starting
at index `i` preserves cache consistency and extends the placement invariant
to `i + ` the number of cells processed. -/
theorem processList_inv (store : Store) (fuel : Nat) (W H D : Nat)
    (palette : List PaletteEntry) (air : Int) :
    ∀ (bs : List Int) (i : Nat) (st st' : RunState),
    processList store fuel W H D palette air bs i st = some (Except.ok st') →
    CacheConsistent st → PlacedSpec W H D i st →
    CacheConsistent st' ∧ PlacedSpec W H D (i + bs.length) st' := by
  intro bs
  induction bs with
  | nil =>
    intro i st st' h hc hp
    simp only [processList, Option.some.injEq, Except.ok.injEq] at h
    subst h
    simpa using ⟨hc, hp⟩
  | cons b rest ih =>
    intro i st st' h hc hp
    unfold processList at h
    cases hcell : processCell store fuel W H D palette air st i b with
    | none =>
      rw [hcell] at h
      simp at h
    | some r =>
      cases r with
      | error e =>
        rw [hcell] at h
        simp at h
      | ok st2 =>
        rw [hcell] at h
        have h2 : processList store fuel W H D palette air rest (i + 1) st2 =
            some (Except.ok st') := h
        have hrec := ih (i + 1) st2 st' h2
          (processCell_consistent store fuel W H D palette air st i b st2 hcell hc)
          (processCell_placed store fuel W H D palette air st i b st2 hcell hp)
        refine ⟨hrec.1, ?_⟩
        have hb : i + (b :: rest).length = i + 1 + rest.length := by
          simp [List.length_cons]
          omega
        rw [hb]
        exact hrec.2

/-- Claim C3: over any conversion run that completes, the underlying
resolver `getBlockMaterial` executed at most once per distinct stripped
block name (the execution trace has no duplicates), and any two placed
meshes whose palette names strip to the same key carry the same resolved
materials. -/
theorem c3_theorem (store : Store) (fuel : Nat) (grid : List Int)
    (palette : List PaletteEntry) (W H D : Nat) (st : RunState)
    (h : processBlocks store fuel grid palette W H D = some (Except.ok st)) :
    st.trace.Nodup ∧
    ∀ p ∈ st.placed, ∀ q ∈ st.placed,
      stripNS p.name = stripNS q.name → p.materials = q.materials := by
  have hinit_c : CacheConsistent initState := by
    refine ⟨List.nodup_nil, ?_, ?_⟩
    · intro k
      simp [initState]
    · intro p hp
      simp [initState] at hp
  have hinit_p : PlacedSpec W H D 0 initState := by
    constructor
    · intro p hp
      simp [initState] at hp
    · simp [initState]
  obtain ⟨⟨hnd, hiff, hplc⟩, _⟩ := processList_inv store fuel W H D palette
    (findAirIndex palette) grid 0 initState st h hinit_c hinit_p
  refine ⟨hnd, ?_⟩
  intro p hp q hq hname
  have h1 := hplc p hp
  have h2 := hplc q hq
  rw [hname] at h1
  rw [h1] at h2
  exact Option.some.inj h2

/-- Claim C3 (witness): a 2×1×1 run with both cells naming stone resolves
stone once and gives both meshes the same materials. -/
theorem c3_witness :
    demoSt.trace.Nodup ∧
    ∀ p ∈ demoSt.placed, ∀ q ∈ demoSt.placed,
      stripNS p.name = stripNS q.name → p.materials = q.materials :=
  c3_theorem emptyStore 1 [0, 0] stonePalette 2 1 1 demoSt rfl

/-- Claim C9 (counterexample): a 1×1×1 structure whose grid has two entries
(the grid length is never validated against the volume) places two mesh
instances, both at position `(0,0,0)`: distinct placed meshes can repeat a
voxel position. -/
theorem c9_counterexample :
    (processBlocks emptyStore 1 [0, 0] stonePalette 1 1 1).map (Except.map
      (fun st => st.placed.map (fun p => (p.x, p.y, p.z)))) =
      some (Except.ok [(0, 0, 0), (0, 0, 0)]) ∧
    (processBlocks emptyStore 1 [0, 0] stonePalette 1 1 1).map (Except.map
      (fun st => st.placed.length)) = some (Except.ok 2) :=
  ⟨rfl, rfl⟩

/-- Claim C9 (amended): provided the grid is no longer than the declared
volume `width*height*depth` (the source never validates this), any two
distinct mesh instances placed by a completed run have different
`(x, y, z)` positions. -/
theorem c9_theorem (store : Store) (fuel : Nat) (grid : List Int)
    (palette : List PaletteEntry) (W H D : Nat) (st : RunState)
    (hlen : grid.length ≤ W * H * D)
    (h : processBlocks store fuel grid palette W H D = some (Except.ok st)) :
    st.placed.Pairwise (fun p q => (p.x, p.y, p.z) ≠ (q.x, q.y, q.z)) := by
  have hinit_c : CacheConsistent initState := by
    refine ⟨List.nodup_nil, ?_, ?_⟩
    · intro k
      simp [initState]
    · intro p hp
      simp [initState] at hp
  have hinit_p : PlacedSpec W H D 0 initState := by
    constructor
    · intro p hp
      simp [initState] at hp
    · simp [initState]
  obtain ⟨_, hbound, hpair⟩ := processList_inv store fuel W H D palette
    (findAirIndex palette) grid 0 initState st h hinit_c hinit_p
  refine List.Pairwise.imp_of_mem ?_ hpair
  intro p q hp hq hlt heq
  obtain ⟨hpi, hpx, hpy, hpz⟩ := hbound p hp
  obtain ⟨hqi, hqx, hqy, hqz⟩ := hbound q hq
  have e1 := decode_encode p.i W H D (lt_of_lt_of_le (by omega) hlen)
  have e2 := decode_encode q.i W H D (lt_of_lt_of_le (by omega) hlen)
  rw [← hpx, ← hpy, ← hpz] at e1
  rw [← hqx, ← hqy, ← hqz] at e2
  simp only [Prod.mk.injEq] at heq
  obtain ⟨hx, hy, hz⟩ := heq
  rw [hx, hy, hz] at e1
  omega

/-- Claim C9 (witness): the amended no-repeat property at a concrete 2×1×1
run whose grid exactly fills the volume. -/
theorem c9_witness :
    demoSt.placed.Pairwise (fun p q => (p.x, p.y, p.z) ≠ (q.x, q.y, q.z)) :=
  c9_theorem emptyStore 1 [0, 0] stonePalette 2 1 1 demoSt (by decide) rfl

/-- Claim C1 (counterexample): with dimensions 1×1×1 and a two-entry grid
(the grid length is never validated), the cell at loop index 1 is placed,
yet recomposing `z + y*D + x*D*H` from its derived coordinates gives 0, not
1: the recomposition check (second component) fails for the placed index 1. -/
theorem c1_counterexample :
    (processBlocks emptyStore 1 [0, 0] stonePalette 1 1 1).map (Except.map
      (fun st => st.placed.map (fun p =>
        (p.i, decide (p.z + p.y * 1 + p.x * 1 * 1 = p.i))))) =
      some (Except.ok [(0, true), (1, false)]) := rfl

/-- Claim C1 (amended): for every placed index `i` that lies inside the
declared volume (`i < width*height*depth`), recomputing
`i' = z + y*depth + x*depth*height` from the derived coordinates yields
`i' = i`; placed indices at or beyond the volume — possible because the grid
length is never validated — wrap around and do not recompose. -/
theorem c1_theorem (store : Store) (fuel : Nat) (grid : List Int)
    (palette : List PaletteEntry) (W H D : Nat) (st : RunState)
    (h : processBlocks store fuel grid palette W H D = some (Except.ok st))
    (p : Placed) (hp : p ∈ st.placed) (hvol : p.i < W * H * D) :
    p.z + p.y * D + p.x * D * H = p.i := by
  have hinit_c : CacheConsistent initState := by
    refine ⟨List.nodup_nil, ?_, ?_⟩
    · intro k
      simp [initState]
    · intro q hq
      simp [initState] at hq
  have hinit_p : PlacedSpec W H D 0 initState := by
    constructor
    · intro q hq
      simp [initState] at hq
    · simp [initState]
  obtain ⟨_, hbound, _⟩ := processList_inv store fuel W H D palette
    (findAirIndex palette) grid 0 initState st h hinit_c hinit_p
  obtain ⟨_, hx, hy, hz⟩ := hbound p hp
  have e := decode_encode p.i W H D hvol
  rw [← hx, ← hy, ← hz] at e
  exact e

/-- Claim C1 (witness): the placed mesh at loop index 1 of a 2×1×1 run
recomposes to its index. -/
theorem c1_witness : demoP.z + demoP.y * 1 + demoP.x * 1 * 1 = demoP.i :=
  c1_theorem emptyStore 1 [0, 0] stonePalette 2 1 1 demoSt rfl demoP
    (by decide) (by decide)

/-- Claim C10: only the first air-named palette entry is treated as empty:
a grid value `j` that differs from the computed air index, is in palette
range, and fetches an entry that is itself named the literal air block, is
not skipped — the loop body resolves materials for it and appends one mesh
to the scene at the coordinates derived from the loop index. -/
theorem c10_theorem (store : Store) (fuel : Nat) (W H D : Nat)
    (palette : List PaletteEntry) (st : RunState) (i j : Nat)
    (e : PaletteEntry) (m : List Material) (st2 : RunState)
    (hj : (j : Int) ≠ findAirIndex palette)
    (hlt : j < palette.length)
    (hget : paletteGet palette (j : Int) = some e)
    (hname : e.name = some "minecraft:air")
    (hm : getMaterials store fuel st "minecraft:air" = some (Except.ok (m, st2))) :
    processCell store fuel W H D palette (findAirIndex palette) st i (j : Int) =
      some (Except.ok { st2 with
        placed := st2.placed ++
          [⟨i, "minecraft:air", coordX i W H D, coordY i H D, coordZ i D, m⟩],
        addedBlocks := st2.addedBlocks + 1 }) := by
  have hcond : ¬((j : Int) = findAirIndex palette ∨
      (palette.length : Int) ≤ (j : Int) ∨ (j : Int) = -1) := by
    push_neg
    refine ⟨hj, ?_, ?_⟩ <;> omega
  unfold processCell
  rw [if_neg hcond, hget]
  simp only []
  rw [hname]
  simp only []
  rw [hm]

/-- Claim C10 (witness): a palette with air at indices 0 and 1: a grid value
of 1 (the second air entry) is meshed and placed rather than skipped. -/
theorem c10_witness :
    processCell emptyStore 1 1 1 1 dupAirPalette (findAirIndex dupAirPalette)
      initState 0 ((1 : Nat) : Int) =
      some (Except.ok { airSt2 with
        placed := airSt2.placed ++
          [⟨0, "minecraft:air", coordX 0 1 1 1, coordY 0 1 1, coordZ 0 1, fb6⟩],
        addedBlocks := airSt2.addedBlocks + 1 }) :=
  c10_theorem emptyStore 1 1 1 1 dupAirPalette initState 0 1 ⟨some "minecraft:air"⟩ fb6 airSt2
    (by decide) (by decide) (by decide) rfl rfl

end McStruct

